import Mathlib

/-!
# Verification of the acid-store chunked object engine, header layer and savepoints

Shallow embedding of the core of the repository:

* `src/object/object.rs` — the `Object` read/write/seek/truncate state machine
  over an ordered list of content-addressed chunks (`currentChunk`, `readOp`,
  `writeOp`, `flushOp`, `seekOp`, `truncateOp`);
* `src/header.rs` — the archive header read/write layout (`headerWrite`,
  `headerRead`);
* `src/repo/common/savepoint.rs` — savepoint validity (`Savepoint.isValid`),
  together with the commit/rollback/restore transaction discipline, which is
  not part of the sources and is modelled from the specification.

Machine integers (`u64`, `usize`) are modelled as `Nat`; the byte contents of
chunks and archives are `List Nat`.  A Rust `panic!` (including the implicit
panics of slice indexing, `copy_from_slice` and `Vec::splice`) is modelled as
`Option.none`; `io::Result` errors are modelled with `Except String`.
-/

namespace AcidStore

/-- Modelled from the spec: the chunk store (`ObjectRepository::write_chunk` /
`ObjectRepository::read_chunk`, whose source file is not part of the sources
here) is a deduplicated map `digest → plaintext` under a collision-resistant
digest (spec §4.4).  We idealise the collision-resistant digest as the identity
injection on byte lists, so that looking a digest up in the store returns
exactly the bytes that were written under it. -/
def chunkHash (data : List Nat) : List Nat := data

/-- Modelled from the spec: `write_chunk(plaintext) → hash` (spec §4.4). -/
def storeWriteChunk (data : List Nat) : List Nat := chunkHash data

/-- Modelled from the spec: `read_chunk(hash) → plaintext`, the plaintext whose
digest is `hash` (spec §4.4); with the idealised digest this is the hash
itself. -/
def storeReadChunk (hash : List Nat) : List Nat := hash

/-- `Chunk` from `src/object/object.rs`: the plaintext size in bytes and the
content digest. -/
structure Chunk where
  size : Nat
  hash : List Nat
deriving DecidableEq, Repr

/-- `ChunkLocation` from `src/object/object.rs`: a chunk, its start and end
offsets in the logical stream, the seek position and its index in the chunk
list.  (`end` is a Lean keyword, hence `endOff`.) -/
structure ChunkLocation where
  chunk : Chunk
  start : Nat
  endOff : Nat
  position : Nat
  index : Nat
deriving DecidableEq, Repr

/-- `ChunkLocation::relative_position`: offset of the seek position from the
beginning of the chunk. -/
def ChunkLocation.relativePosition (loc : ChunkLocation) : Nat :=
  loc.position - loc.start

/-- The `Default` value of `ChunkLocation` (used as the initial
`start_location` of a fresh `Object`; the source comments that the initial
value is unimportant). -/
def defaultLocation : ChunkLocation :=
  { chunk := { size := 0, hash := [] }, start := 0, endOff := 0, position := 0, index := 0 }

/-- `ObjectHandle` from `src/object/object.rs`: the original size of the data
in bytes and the ordered list of chunks which make up the data. -/
structure ObjectHandle where
  size : Nat
  chunks : List Chunk
deriving DecidableEq, Repr

/-- The `Default` `ObjectHandle`: size 0, no chunks (a freshly inserted key). -/
def freshHandle : ObjectHandle := { size := 0, chunks := [] }

/-- The sum of the sizes of a chunk list (the fold at the end of
`Object::flush`). -/
def chunkListTotal (chunks : List Chunk) : Nat :=
  (chunks.map (·.size)).sum

/-- The invariant stated by the spec (§3, `ObjectHandle`):
`total-size == Σ chunk.size`. -/
def sizeInvariant (h : ObjectHandle) : Prop :=
  h.size = chunkListTotal h.chunks

instance (h : ObjectHandle) : Decidable (sizeInvariant h) := by
  unfold sizeInvariant; infer_instance

/-- The logical content of an object: the concatenation of its chunks'
plaintexts, in list order. -/
def objectContent (h : ObjectHandle) : List Nat :=
  (h.chunks.map (fun c => storeReadChunk c.hash)).flatten

/-- The mutable state of an `Object` from `src/object/object.rs`: the handle it
borrows from the repository, the chunks written since the last flush
(`new_chunks`), the location of the first chunk written to since the last
flush (`start_location`), the chunker's buffered bytes, and the seek
position.  The chunker (`IncrementalChunker<ZPAQ>`, not among the sources) is
modelled from the spec as a buffer drained by a boundary scheme, see
`trivSplit`. -/
structure ObjState where
  handle : ObjectHandle
  newChunks : List Chunk
  startLocation : ChunkLocation
  chunkerBuf : List Nat
  position : Nat
deriving DecidableEq, Repr

/-- The `Object` state for a freshly inserted key. -/
def freshObj : ObjState :=
  { handle := freshHandle, newChunks := [], startLocation := defaultLocation,
    chunkerBuf := [], position := 0 }

/-- The loop of `Object::current_chunk`: walk the chunk list accumulating
start/end offsets; return the first chunk whose span contains `position`
(boundary positions select the lower chunk, since the test is
`position ≤ chunk_end`).  Falling off the end of the list is the
`panic!("The current seek position is past the end of the object.")`,
modelled as `none`. -/
def currentChunkAux (position : Nat) : List Chunk → Nat → Nat → Option ChunkLocation
  | [], _, _ => none
  | c :: rest, chunkStart, index =>
    let chunkEnd := chunkStart + c.size
    if position ≥ chunkStart ∧ position ≤ chunkEnd then
      some { chunk := c, start := chunkStart, endOff := chunkEnd,
             position := position, index := index }
    else
      currentChunkAux position rest (chunkStart + c.size) (index + 1)

/-- `Object::current_chunk`. -/
def currentChunk (st : ObjState) : Option ChunkLocation :=
  currentChunkAux st.position st.handle.chunks 0 0

/-- `Object::read_chunk(size)`: the bytes between the current seek position and
the end of the current chunk, at most `size` bytes
(`chunk_data[start..end]` with `end = min(start + size, chunk.size)`).
`none` models the `current_chunk` panic and the slice panic when the stored
data is shorter than `end`. -/
def objReadChunk (st : ObjState) (size : Nat) : Option (List Nat) :=
  match currentChunk st with
  | none => none
  | some loc =>
    let start := loc.relativePosition
    let stop := min (start + size) loc.chunk.size
    let chunkData := storeReadChunk loc.chunk.hash
    if stop ≤ chunkData.length then
      some ((chunkData.take stop).drop start)
    else
      none

/-- `Read::read for Object` (`src/object/object.rs` lines 347–354): fetch the
next slice of the current chunk, then `buf.copy_from_slice(next_chunk)` —
which panics unless the slice length equals `buf.len()` exactly — advance the
position and return the byte count.  The returned `Nat` is the value
`Ok(next_chunk.len())`. -/
def readOp (st : ObjState) (bufLen : Nat) : Option (List Nat × Nat × ObjState) :=
  match objReadChunk st bufLen with
  | none => none
  | some nextChunk =>
    if nextChunk.length = bufLen then
      some (nextChunk, nextChunk.length,
            { st with position := st.position + nextChunk.length })
    else
      none

/-- Modelled from the spec: the incremental chunker's drain step.  A boundary
scheme `split` maps the buffered bytes to the complete chunks found so far and
the remaining buffer (spec §4.2: boundaries are content-defined and
deterministic).  The object-engine operations are parameterized by `split`. -/
def trivSplit : List Nat → List (List Nat) × List Nat := fun buffered => ([], buffered)

/-- `Object::write_chunks`: drain the chunker's complete chunks, write each to
the chunk store, append the resulting descriptors to `new_chunks`. -/
def writeChunks (split : List Nat → List (List Nat) × List Nat) (st : ObjState) : ObjState :=
  let drained := split st.chunkerBuf
  { st with
    chunkerBuf := drained.2,
    newChunks := st.newChunks ++
      drained.1.map (fun d => { size := d.length, hash := storeWriteChunk d }) }

/-- `Write::write for Object` (`src/object/object.rs` lines 293–314).  On the
first write after a flush (`new_chunks.is_empty()`), record `start_location`
and feed the current chunk's prefix `[0..relative_position]` into the
chunker; then feed `buf`, drain complete chunks, and advance the position by
`buf.len()`.  `none` models the `current_chunk` panic and the prefix-slice
panic. -/
def writeOp (split : List Nat → List (List Nat) × List Nat) (st : ObjState)
    (buf : List Nat) : Option (Nat × ObjState) :=
  let step1 : Option ObjState :=
    if st.newChunks.isEmpty then
      match currentChunk st with
      | none => none
      | some loc =>
        let firstChunk := storeReadChunk loc.chunk.hash
        if loc.relativePosition ≤ firstChunk.length then
          some { st with startLocation := loc,
                         chunkerBuf := st.chunkerBuf ++ firstChunk.take loc.relativePosition }
        else none
    else some st
  match step1 with
  | none => none
  | some st1 =>
    let st2 := writeChunks split { st1 with chunkerBuf := st1.chunkerBuf ++ buf }
    some (buf.length, { st2 with position := st2.position + buf.length })

/-- Modelled from the spec: `finalize()` emits any remaining buffered bytes as
the final chunk (spec §4.2); nothing is emitted when the buffer is empty.
Used by `flushOp` for `chunker.flush()`. -/
def finalizeSplit (split : List Nat → List (List Nat) × List Nat)
    (buffered : List Nat) : List (List Nat) :=
  let drained := split buffered
  drained.1 ++ (if drained.2.isEmpty then [] else [drained.2])

/-- `Vec::splice(start..stop, repl)` on a chunk list: replace the half-open
index range `[start, stop)` by `repl`.  Rust panics when `start > stop` or
`stop > len`; the caller guards for this. -/
def spliceChunks (start stop : Nat) (repl : List Chunk) (chunks : List Chunk) : List Chunk :=
  chunks.take start ++ repl ++ chunks.drop stop

/-- `Write::flush for Object` (`src/object/object.rs` lines 316–344): feed the
current (end) chunk's suffix `[relative_position..]` into the chunker,
finalize the chunker and write the drained chunks to the store, then splice
the half-open range `start_location.index .. end_location.index` of the
handle's chunk list with `new_chunks`, recompute the handle's size as the sum
of the chunk sizes, and clear `new_chunks`.  `none` models the
`current_chunk` panic, the suffix-slice panic and the `Vec::splice` range
panics. -/
def flushOp (split : List Nat → List (List Nat) × List Nat) (st : ObjState) :
    Option ObjState :=
  match currentChunk st with
  | none => none
  | some endLoc =>
    let lastChunk := storeReadChunk endLoc.chunk.hash
    if endLoc.relativePosition ≤ lastChunk.length then
      let buffered := st.chunkerBuf ++ lastChunk.drop endLoc.relativePosition
      let finalChunks := finalizeSplit split buffered
      let remainingChunks := st.newChunks ++
        finalChunks.map (fun d => { size := d.length, hash := storeWriteChunk d })
      if st.startLocation.index ≤ endLoc.index ∧ endLoc.index ≤ st.handle.chunks.length then
        let newList := spliceChunks st.startLocation.index endLoc.index remainingChunks
          st.handle.chunks
        some { st with
          handle := { size := chunkListTotal newList, chunks := newList },
          newChunks := [],
          chunkerBuf := [] }
      else none
    else none

/-- `std::io::SeekFrom`, as used by `Seek for Object`. -/
inductive SeekFrom where
  | start (offset : Nat)
  | fromEnd (offset : Int)
  | current (offset : Int)
deriving DecidableEq, Repr

/-- `Seek::seek for Object` (`src/object/object.rs` lines 253–286): flush
first, then compute the new position from the post-flush object size:
`Start(o)` clamps with `min(size, o)`; `End(o)` fails with `InvalidInput`
when `o > size` and otherwise clamps `size - o` with `min`; `Current(o)`
fails when `position + o < 0` and otherwise clamps `position + o`.  The outer
`none` models a panic inside the initial flush; `Except.error` is the
`io::Error`. -/
def seekOp (split : List Nat → List (List Nat) × List Nat) (st : ObjState)
    (pos : SeekFrom) : Option (Except String (Nat × ObjState)) :=
  match flushOp split st with
  | none => none
  | some st1 =>
    let objectSize := st1.handle.size
    match pos with
    | .start offset =>
      let np := min objectSize offset
      some (.ok (np, { st1 with position := np }))
    | .fromEnd offset =>
      if (objectSize : Int) < offset then
        some (.error "Attempted to seek to a negative offset.")
      else
        let np := min objectSize ((objectSize : Int) - offset).toNat
        some (.ok (np, { st1 with position := np }))
    | .current offset =>
      if (st1.position : Int) + offset < 0 then
        some (.error "Attempted to seek to a negative offset.")
      else
        let np := min objectSize ((st1.position : Int) + offset).toNat
        some (.ok (np, { st1 with position := np }))

/-- `Object::truncate` (`src/object/object.rs` lines 164–190): flush; if
`length ≥ size` do nothing more; otherwise set `position := length`, locate
the current chunk, slice it to `[0..relative_position]`, write the slice back
as a replacement chunk, drop all chunks from that index onward
(`drain(index..)`) and push the replacement.  Note that the source never
updates `handle.size` in the truncating branch. -/
def truncateOp (split : List Nat → List (List Nat) × List Nat) (st : ObjState)
    (length : Nat) : Option ObjState :=
  match flushOp split st with
  | none => none
  | some st1 =>
    if length ≥ st1.handle.size then
      some st1
    else
      let st2 := { st1 with position := length }
      match currentChunk st2 with
      | none => none
      | some endLoc =>
        let lastChunk := storeReadChunk endLoc.chunk.hash
        if endLoc.relativePosition ≤ lastChunk.length then
          let newLast := lastChunk.take endLoc.relativePosition
          let newLastChunk : Chunk := { size := newLast.length, hash := storeWriteChunk newLast }
          some { st2 with
            handle := { st2.handle with
              chunks := st2.handle.chunks.take endLoc.index ++ [newLastChunk] } }
        else none

/-- The pipeline of spec scenario S3 / claim C2: `seek(Start p)`, `write w`,
`flush`, each propagating panics and treating a seek error as a stop. -/
def seekWriteFlush (split : List Nat → List (List Nat) × List Nat) (st : ObjState)
    (p : Nat) (w : List Nat) : Option ObjState :=
  match seekOp split st (SeekFrom.start p) with
  | some (Except.ok (_, st1)) =>
    match writeOp split st1 w with
    | some (_, st2) => flushOp split st2
    | none => none
  | _ => none

/-! ## Archive header layer (`src/header.rs`) -/

/-- `u64::to_be_bytes`: the 8 big-endian bytes of `n` (for `n < 2^64`). -/
def u64be (n : Nat) : List Nat :=
  [n / 2 ^ 56 % 256, n / 2 ^ 48 % 256, n / 2 ^ 40 % 256, n / 2 ^ 32 % 256,
   n / 2 ^ 24 % 256, n / 2 ^ 16 % 256, n / 2 ^ 8 % 256, n % 256]

/-- `u64::from_be_bytes` on an 8-byte list. -/
def readU64be (bytes : List Nat) : Nat :=
  bytes.foldl (fun acc b => acc * 256 + b % 256) 0

/-- Modelled from the spec: `pad_to_block_size` (`src/block.rs` is not among
the sources) appends padding until the archive length is a multiple of the
block size ("Seek to archive end; pad to the next block boundary", spec §4.6);
padding bytes are zeros. -/
def padToBlockSize (blockSize : Nat) (archive : List Nat) : List Nat :=
  archive ++ List.replicate ((blockSize - archive.length % blockSize) % blockSize) 0

/-- Steps 1–5 of `Header::write` (`src/header.rs` lines 92–101): record
`offset = archive.seek(SeekFrom::End(0))` — the archive length *before*
padding — pad to the block size, then append the 8-byte big-endian length of
the serialized header followed by the serialized header itself.  The
serialized header (`rmp_serde::encode::to_vec`) is abstracted as the byte list
`payload`.  Returns the recorded `offset` together with the archive contents
before the superblock update. -/
def headerWriteBody (blockSize : Nat) (archive payload : List Nat) : Nat × List Nat :=
  (archive.length,
   padToBlockSize blockSize archive ++ u64be payload.length ++ payload)

/-- Overwrite the first `bytes.length` bytes of `archive` in place (a seek to
`Start(0)` followed by `write_all(bytes)`). -/
def overwriteStart (bytes archive : List Nat) : List Nat :=
  bytes ++ archive.drop bytes.length

/-- `Header::write` (`src/header.rs` lines 92–114): append padding, length
prefix and serialized header, then as the final step overwrite the 8-byte
superblock at offset 0 with the recorded `offset`. -/
def headerWrite (blockSize : Nat) (archive payload : List Nat) : List Nat :=
  let body := headerWriteBody blockSize archive payload
  overwriteStart (u64be body.1) body.2

/-- `Header::read` (`src/header.rs` lines 59–80): read the 8-byte big-endian
offset at byte 0, seek to it, read the 8-byte big-endian header size there,
and hand the following `header_size` bytes to the deserializer.  Returns
`(offset, header_size, raw payload bytes)`; `none` models a failing
`read_exact`.  Deserialization is abstracted: `Header::read` returns the
header `h` exactly when the raw payload bytes equal the serialization of
`h`. -/
def headerRead (archive : List Nat) : Option (Nat × Nat × List Nat) :=
  if archive.length < 8 then none
  else
    let offset := readU64be (archive.take 8)
    let rest := archive.drop offset
    if rest.length < 8 then none
    else
      let headerSize := readU64be (rest.take 8)
      some (offset, headerSize, (rest.drop 8).take headerSize)

/-! ## Savepoints (`src/repo/common/savepoint.rs`) and the transaction layer

Only `Savepoint::is_valid` is among the sources; the repository operations
`commit`, `rollback`, `savepoint` and `restore` are modelled from the spec
(§4.6 "Savepoint / restore", §9 "Savepoints as shared snapshots"): the
repository holds the unique strong `Arc<Uuid>` tag of the current
transaction, a savepoint holds a weak tag, and `Weak::upgrade` succeeds
exactly when the strong tag still exists.  We model `Arc` allocation with a
fresh-id counter `nextTxn`: the strong tag alive in state `r` is
`r.currentTxn`, so a weak tag upgrades iff it equals `r.currentTxn`. -/

/-- The transactional state of a repository, modelled from the spec: the
in-memory header (abstracted to a `Nat`), the last committed header, the id
of the current transaction's strong tag, and the fresh-id counter. -/
structure RepoState where
  header : Nat
  committed : Nat
  currentTxn : Nat
  nextTxn : Nat
deriving DecidableEq, Repr

/-- `Savepoint` from `src/repo/common/savepoint.rs`: a snapshot of the header
plus the weak transaction tag (`transaction_id`). -/
structure Savepoint where
  header : Nat
  transactionId : Nat
deriving DecidableEq, Repr

/-- `Savepoint::is_valid`: `self.transaction_id.upgrade().is_some()` — the weak
tag upgrades iff the repository's strong tag for the same transaction is
still alive, i.e. iff it equals the repository's current transaction id. -/
def Savepoint.isValid (r : RepoState) (sp : Savepoint) : Bool :=
  sp.transactionId == r.currentTxn

/-- Modelled from the spec: `savepoint()` clones the current in-memory header
and wraps it with a weak tag for the current transaction (spec §4.6). -/
def savepointOp (r : RepoState) : Savepoint :=
  { header := r.header, transactionId := r.currentTxn }

/-- Modelled from the spec: `commit()` publishes the in-memory header and drops
the strong tag, allocating a fresh one (spec §4.6: commit invalidates all
outstanding savepoints). -/
def commitOp (r : RepoState) : RepoState :=
  { header := r.header, committed := r.header,
    currentTxn := r.nextTxn, nextTxn := r.nextTxn + 1 }

/-- Modelled from the spec: `rollback()` resets the in-memory header to the
last committed one and drops the strong tag, allocating a fresh one. -/
def rollbackOp (r : RepoState) : RepoState :=
  { header := r.committed, committed := r.committed,
    currentTxn := r.nextTxn, nextTxn := r.nextTxn + 1 }

/-- Modelled from the spec: `restore(savepoint)` replaces the in-memory header
with the savepoint's header if the savepoint is valid and returns `true`;
an invalid savepoint makes it return `false` without any mutation. -/
def restoreOp (r : RepoState) (sp : Savepoint) : Bool × RepoState :=
  if Savepoint.isValid r sp then (true, { r with header := sp.header })
  else (false, r)

/-- The repository operations that can run between taking a savepoint and
checking it: uncommitted mutation of the header, commit, rollback, restoring
some (other) savepoint. -/
inductive RepoOp where
  | mutate (h : Nat)
  | commit
  | rollback
  | restore (sp : Savepoint)
deriving DecidableEq, Repr

/-- Apply one repository operation. -/
def applyOp (r : RepoState) : RepoOp → RepoState
  | .mutate h => { r with header := h }
  | .commit => commitOp r
  | .rollback => rollbackOp r
  | .restore sp => (restoreOp r sp).2

/-- Apply a sequence of repository operations, oldest first. -/
def applyOps (r : RepoState) (ops : List RepoOp) : RepoState :=
  ops.foldl applyOp r

/-- The operations the spec says invalidate savepoints: commit and rollback. -/
def invalidating : RepoOp → Bool
  | .commit => true
  | .rollback => true
  | _ => false

/-- Well-formedness of the fresh-id counter: the current transaction's tag was
allocated before the counter. -/
def RepoWF (r : RepoState) : Prop :=
  r.currentTxn < r.nextTxn

instance (r : RepoState) : Decidable (RepoWF r) := by
  unfold RepoWF; infer_instance

/-! ## Concrete states used in the theorems -/

/-- The ASCII bytes of `"HelloWorld"` (spec scenario S3). -/
def helloWorld : List Nat := [72, 101, 108, 108, 111, 87, 111, 114, 108, 100]

/-- The ASCII bytes of `"XXXXX"` (spec scenario S3). -/
def xFive : List Nat := [88, 88, 88, 88, 88]

/-- A quiescent object whose content `"HelloWorld"` is stored as one chunk,
with the seek position at 0. -/
def objHelloWorld : ObjState :=
  { handle := { size := 10, chunks := [{ size := 10, hash := helloWorld }] },
    newChunks := [], startLocation := defaultLocation, chunkerBuf := [], position := 0 }

/-- The ASCII bytes of `"0123456789"` (spec scenario S6). -/
def digitsBytes : List Nat := [48, 49, 50, 51, 52, 53, 54, 55, 56, 57]

/-- A quiescent object whose content `"0123456789"` is stored as one chunk,
with the seek position at the end (so that the flush at the start of
`truncate` and `seek` leaves the state unchanged). -/
def objDigits : ObjState :=
  { handle := { size := 10, chunks := [{ size := 10, hash := digitsBytes }] },
    newChunks := [], startLocation := defaultLocation, chunkerBuf := [], position := 10 }

/-- The state produced by `truncateOp trivSplit objDigits 4`: the chunk list is
correctly cut to the first four bytes and the position moved to 4, but the
handle's `size` field still holds the stale value 10. -/
def objDigitsTruncated : ObjState :=
  { handle := { size := 10, chunks := [{ size := 4, hash := [48, 49, 50, 51] }] },
    newChunks := [], startLocation := defaultLocation, chunkerBuf := [], position := 4 }

/-- A quiescent object whose content `"ABC"` is stored as one chunk, with the
seek position at 0. -/
def objABC : ObjState :=
  { handle := { size := 3, chunks := [{ size := 3, hash := [65, 66, 67] }] },
    newChunks := [], startLocation := defaultLocation, chunkerBuf := [], position := 0 }

/-- A quiescent object of two bytes stored as one chunk, position 0. -/
def objSmall : ObjState :=
  { handle := { size := 2, chunks := [{ size := 2, hash := [7, 8] }] },
    newChunks := [], startLocation := defaultLocation, chunkerBuf := [], position := 0 }

/-- A 10-byte archive: the 8-byte superblock followed by two data bytes, so the
archive end is not on a block boundary for block size 4. -/
def archive10 : List Nat := u64be 0 ++ [9, 9]

/-- A repository in its first transaction (tag 0), with header 5 committed. -/
def repoExample : RepoState := { header := 5, committed := 5, currentTxn := 0, nextTxn := 1 }

/-- An uncommitted mutation followed by a commit. -/
def opsExample : List RepoOp := [RepoOp.mutate 7, RepoOp.commit]

/-- A savepoint whose transaction tag (3) is not the current one of
`repoExample`, hence invalid there. -/
def spStale : Savepoint := { header := 5, transactionId := 3 }

deriving instance DecidableEq for Except

/-! ## Claims -/

/-- Claim C1: the round-trip property fails before it can even start — writing
any bytes to the object of a freshly inserted key panics, because the first
`write` after a flush calls `current_chunk` on an empty chunk list, which
falls through the loop and hits
`panic!("The current seek position is past the end of the object.")`. -/
theorem write_to_fresh_object_panics :
    writeOp trivSplit freshObj [1] = none := by decide

/-- Claim C2: the seek–write–flush pipeline of spec scenario S3 does not yield
`B[0..p] ++ W ++ B[p+len(W)..]`.  With `B = "HelloWorld"`, `p = 5`,
`W = "XXXXX"`, the resulting content is
`"HelloXXXXX" ++ "HelloWorld" ++ "HelloWorld"`: `flush` splices the half-open
chunk range `start_location.index .. end_location.index`, leaving the end
chunk in place even though its suffix was copied into the replacement chunks,
and the flush performed by `seek` duplicates the current chunk the same
way. -/
theorem seek_write_flush_duplicates_end_chunk :
    (seekWriteFlush trivSplit objHelloWorld 5 xFive).map (fun st => objectContent st.handle)
      = some (helloWorld.take 5 ++ xFive ++ helloWorld.drop 10 ++ helloWorld ++ helloWorld) ∧
    helloWorld.take 5 ++ xFive ++ helloWorld.drop 10 ++ helloWorld ++ helloWorld ≠
      helloWorld.take 5 ++ xFive ++ helloWorld.drop 10 := by decide

/-- Claim C3: `read` does not implement the short-read semantics the claim
describes.  On an object `"ABC"` of a single 3-byte chunk at position 0, a
read with a 4-byte buffer has `read_chunk` yield exactly the 3 remaining
bytes, but `buf.copy_from_slice(next_chunk)` requires equal lengths and
panics instead of copying 3 bytes and returning 3. -/
theorem read_with_short_chunk_panics :
    readOp objABC 4 = none ∧ objReadChunk objABC 4 = some [65, 66, 67] := by decide

/-- Claim C4: the header round-trip fails whenever the archive end is not
block-aligned, because `Header::write` records `offset` *before* padding and
stores that in the superblock, while the length prefix and payload are
appended after the padding.  For block size 4, a 10-byte archive and payload
`[1,2,3]`: the superblock points at offset 10, the length prefix actually
sits at offset 12, and `Header::read` reads the padding (zeros) as a header
length of 0, returning an empty payload instead of the payload written. -/
theorem header_round_trip_fails_when_unaligned :
    headerRead (headerWrite 4 archive10 [1, 2, 3]) = some (10, 0, []) ∧
    (headerWrite 4 archive10 [1, 2, 3]).take 8 = u64be 10 ∧
    ((headerWrite 4 archive10 [1, 2, 3]).drop 12).take 8 = u64be 3 ∧
    ([] : List Nat) ≠ [1, 2, 3] := by decide

/-- Claim C6: `truncate(4)` on the 10-byte object `"0123456789"` cuts the
chunk list to the first four bytes and moves the seek position to 4, but
never updates the handle's `size` field, which keeps the stale value 10
instead of the claimed 4. -/
theorem truncate_leaves_stale_size :
    truncateOp trivSplit objDigits 4 = some objDigitsTruncated ∧
    objectContent objDigitsTruncated.handle = digitsBytes.take 4 ∧
    objDigitsTruncated.position = 4 ∧
    objDigitsTruncated.handle.size = 10 ∧
    objDigitsTruncated.handle.size ≠ 4 := by decide

/-- Claim C7: the invariant `total-size == Σ chunk.size` is not preserved by
every public operation: it holds before `truncate(4)` on the object
`"0123456789"` and is violated after, because `truncate` rewrites the chunk
list without updating `size`. -/
theorem truncate_breaks_size_invariant :
    sizeInvariant objDigits.handle ∧
    truncateOp trivSplit objDigits 4 = some objDigitsTruncated ∧
    ¬ sizeInvariant objDigitsTruncated.handle := by decide

/-- Claim C8 is false as stated: a negative `SeekFrom::End` offset does not
fail.  On the 10-byte object, `seek(End(-1))` returns `Ok(10)` — the
subtraction `size - offset` yields 11, clamped by `min` to the object size —
because the error branch fires only when `offset > size`, not when `offset`
is negative. -/
theorem seek_end_negative_offset_succeeds :
    seekOp trivSplit objDigits (SeekFrom.fromEnd (-1)) = some (Except.ok (10, objDigits)) ∧
    (-1 : Int) < 0 := by decide

/-- Claim C8 as amended: for every `seek(SeekFrom::End(offset))` that gets past
the initial flush, the new position is `min(size, size - offset)` — `offset`
is subtracted from `total-size`, not added — and the call fails with an
`InvalidInput` error exactly when `offset > total-size` (the unclamped result
would be negative); negative offsets succeed and clamp to the object size. -/
theorem seek_from_end_subtracts_and_clamps
    (split : List Nat → List (List Nat) × List Nat) (st st' : ObjState) (off : Int)
    (h : flushOp split st = some st') :
    seekOp split st (SeekFrom.fromEnd off) =
      if (st'.handle.size : Int) < off then
        some (Except.error "Attempted to seek to a negative offset.")
      else
        some (Except.ok (min st'.handle.size ((st'.handle.size : Int) - off).toNat,
          { st' with position := min st'.handle.size ((st'.handle.size : Int) - off).toNat })) := by
  unfold seekOp
  rw [h]

/-- Witness for the amended C8 theorem at the 10-byte object with offset 3:
the resulting position is `10 - 3 = 7`. -/
theorem seek_from_end_subtracts_and_clamps_witness :
    seekOp trivSplit objDigits (SeekFrom.fromEnd 3)
      = some (Except.ok (7, { objDigits with position := 7 })) := by
  rw [seek_from_end_subtracts_and_clamps trivSplit objDigits objDigits 3 (by decide)]
  decide

/-- The length of a big-endian `u64` is 8 bytes. -/
theorem u64be_length (n : Nat) : (u64be n).length = 8 := rfl

/-- Claim C9: `Header::write` never overwrites existing live data.  The body
(steps before the superblock update) keeps the whole previous archive as a
prefix and only appends padding, length prefix and payload; the full write
equals that body with only its first 8 bytes (the superblock) overwritten, as
the final step; so every byte in `[8, previous size)` is unchanged and the
archive only grows. -/
theorem header_write_appends_only
    (blockSize : Nat) (archive payload : List Nat) (h : 8 ≤ archive.length) :
    (headerWriteBody blockSize archive payload).2.take archive.length = archive ∧
    headerWrite blockSize archive payload =
      overwriteStart (u64be archive.length) (headerWriteBody blockSize archive payload).2 ∧
    (headerWrite blockSize archive payload).take 8 = u64be archive.length ∧
    ((headerWrite blockSize archive payload).drop 8).take (archive.length - 8)
      = archive.drop 8 ∧
    archive.length ≤ (headerWrite blockSize archive payload).length := by
  have hbody : (headerWriteBody blockSize archive payload).2
      = archive ++ (List.replicate ((blockSize - archive.length % blockSize) % blockSize) 0
          ++ u64be payload.length ++ payload) := by
    simp [headerWriteBody, padToBlockSize]
  have htake : (headerWriteBody blockSize archive payload).2.take archive.length = archive := by
    rw [hbody, List.take_left]
  have hwrite : headerWrite blockSize archive payload
      = u64be archive.length ++ (headerWriteBody blockSize archive payload).2.drop 8 := by
    simp [headerWrite, overwriteStart, headerWriteBody, u64be_length]
  refine ⟨htake, rfl, ?_, ?_, ?_⟩
  · rw [hwrite, List.take_left' (u64be_length archive.length)]
  · rw [hwrite, List.drop_left' (u64be_length archive.length), hbody,
      List.drop_append_of_le_length h,
      List.take_left' (by simp : (archive.drop 8).length = archive.length - 8)]
  · rw [hwrite, hbody]
    simp [List.length_drop, u64be_length]
    omega

/-- Witness for the C9 theorem at block size 4, the 10-byte archive and
payload `[1, 2, 3]`. -/
theorem header_write_appends_only_witness :
    (headerWriteBody 4 archive10 [1, 2, 3]).2.take archive10.length = archive10 ∧
    headerWrite 4 archive10 [1, 2, 3] =
      overwriteStart (u64be archive10.length) (headerWriteBody 4 archive10 [1, 2, 3]).2 ∧
    (headerWrite 4 archive10 [1, 2, 3]).take 8 = u64be archive10.length ∧
    ((headerWrite 4 archive10 [1, 2, 3]).drop 8).take (archive10.length - 8)
      = archive10.drop 8 ∧
    archive10.length ≤ (headerWrite 4 archive10 [1, 2, 3]).length :=
  header_write_appends_only 4 archive10 [1, 2, 3] (by decide)

/-- The `current_chunk` loop returns `none` (the panic) whenever the chunk list
is empty or the position lies strictly beyond the accumulated chunk sizes. -/
theorem currentChunkAux_none_of (pos : Nat) :
    ∀ (chunks : List Chunk) (chunkStart idx : Nat),
      (chunks = [] ∨ chunkStart + chunkListTotal chunks < pos) →
      currentChunkAux pos chunks chunkStart idx = none := by
  intro chunks
  induction chunks with
  | nil => intro chunkStart idx _; rfl
  | cons c rest ih =>
    intro chunkStart idx h
    rcases h with h | h
    · cases h
    · have htot : chunkListTotal (c :: rest) = c.size + chunkListTotal rest := by
        simp [chunkListTotal]
      have hgt : chunkStart + c.size < pos := by omega
      rw [currentChunkAux]
      rw [if_neg (by omega)]
      exact ih (chunkStart + c.size) (idx + 1) (Or.inr (by omega))

/-- Claim C10: `current_chunk` panics (returns `none` in the model) whenever
the chunk list is empty or the seek position exceeds the sum of the chunk
sizes, and both panic states are reachable from the public interface: the
first `write` on a freshly inserted object (empty chunk list) panics, and a
`write` that advances the position past the last chunk's end succeeds but
makes the following `flush` panic. -/
theorem current_chunk_panics_and_is_reachable :
    (∀ st : ObjState,
        st.handle.chunks = [] ∨ chunkListTotal st.handle.chunks < st.position →
        currentChunk st = none) ∧
    writeOp trivSplit freshObj [2] = none ∧
    writeOp trivSplit objSmall [1, 2, 3, 4, 5]
      = some (5, { handle := objSmall.handle, newChunks := [],
                   startLocation := { chunk := { size := 2, hash := [7, 8] }, start := 0,
                                      endOff := 2, position := 0, index := 0 },
                   chunkerBuf := [1, 2, 3, 4, 5], position := 5 }) ∧
    ((writeOp trivSplit objSmall [1, 2, 3, 4, 5]).bind fun r => flushOp trivSplit r.2)
      = none := by
  refine ⟨?_, by decide, by decide, by decide⟩
  intro st h
  exact currentChunkAux_none_of st.position st.handle.chunks 0 0 (by simpa using h)

/-- Witness for the C10 theorem: the universally quantified part applied to the
freshly inserted object, whose chunk list is empty. -/
theorem current_chunk_panics_and_is_reachable_witness :
    currentChunk freshObj = none :=
  current_chunk_panics_and_is_reachable.1 freshObj (Or.inl rfl)

/-- Along any sequence of repository operations: well-formedness of the
fresh-id counter is preserved, the counter never decreases, the current
transaction tag is unchanged iff no commit or rollback occurs, and after any
commit or rollback the current tag is at least the starting counter (hence
fresh). -/
theorem applyOps_txn (ops : List RepoOp) :
    ∀ s : RepoState, RepoWF s →
      RepoWF (applyOps s ops) ∧
      s.nextTxn ≤ (applyOps s ops).nextTxn ∧
      ((∀ op ∈ ops, invalidating op = false) →
        (applyOps s ops).currentTxn = s.currentTxn) ∧
      ((∃ op ∈ ops, invalidating op = true) →
        s.nextTxn ≤ (applyOps s ops).currentTxn) := by
  induction ops with
  | nil =>
    intro s hwf
    refine ⟨hwf, le_refl _, fun _ => rfl, ?_⟩
    rintro ⟨op, hmem, _⟩
    cases hmem
  | cons op rest ih =>
    intro s hwf
    have hcons : applyOps s (op :: rest) = applyOps (applyOp s op) rest := rfl
    rw [hcons]
    cases op with
    | mutate hd =>
      have hstep : applyOp s (.mutate hd) = { s with header := hd } := rfl
      rw [hstep]
      have h' := ih { s with header := hd } hwf
      refine ⟨h'.1, h'.2.1, ?_, ?_⟩
      · intro hnone
        exact h'.2.2.1 fun o ho => hnone o (List.mem_cons_of_mem _ ho)
      · rintro ⟨o, ho, hinv⟩
        rcases List.mem_cons.mp ho with rfl | ho
        · simp [invalidating] at hinv
        · exact h'.2.2.2 ⟨o, ho, hinv⟩
    | restore sp =>
      have hsame : applyOp s (.restore sp) = (restoreOp s sp).2 := rfl
      rw [hsame]
      have hpres : ((restoreOp s sp).2).nextTxn = s.nextTxn ∧
          ((restoreOp s sp).2).currentTxn = s.currentTxn ∧ RepoWF ((restoreOp s sp).2) := by
        unfold restoreOp
        split <;> exact ⟨rfl, rfl, hwf⟩
      have h' := ih (restoreOp s sp).2 hpres.2.2
      have h1 := h'.2.1
      have hn := hpres.1
      have hc := hpres.2.1
      refine ⟨h'.1, by omega, ?_, ?_⟩
      · intro hnone
        have h3 := h'.2.2.1 fun o ho => hnone o (List.mem_cons_of_mem _ ho)
        calc (applyOps (restoreOp s sp).2 rest).currentTxn
            = ((restoreOp s sp).2).currentTxn := h3
          _ = s.currentTxn := hc
      · rintro ⟨o, ho, hinv⟩
        rcases List.mem_cons.mp ho with rfl | ho
        · simp [invalidating] at hinv
        · have h2 := h'.2.2.2 ⟨o, ho, hinv⟩
          omega
    | commit =>
      have hstep : applyOp s .commit = commitOp s := rfl
      rw [hstep]
      have hwf' : RepoWF (commitOp s) := Nat.lt_succ_self _
      have h' := ih (commitOp s) hwf'
      have h1 := h'.2.1
      have hnext : (commitOp s).nextTxn = s.nextTxn + 1 := rfl
      have hcur : (commitOp s).currentTxn = s.nextTxn := rfl
      refine ⟨h'.1, by omega, ?_, ?_⟩
      · intro hnone
        exact absurd (hnone .commit (List.mem_cons_self _ _)) (by simp [invalidating])
      · intro _
        by_cases hrem : ∀ o ∈ rest, invalidating o = false
        · have h3 := h'.2.2.1 hrem
          omega
        · push_neg at hrem
          rcases hrem with ⟨o, ho, hno⟩
          have hinv : invalidating o = true := by
            cases hv : invalidating o
            · exact absurd hv hno
            · rfl
          have h2 := h'.2.2.2 ⟨o, ho, hinv⟩
          omega
    | rollback =>
      have hstep : applyOp s .rollback = rollbackOp s := rfl
      rw [hstep]
      have hwf' : RepoWF (rollbackOp s) := Nat.lt_succ_self _
      have h' := ih (rollbackOp s) hwf'
      have h1 := h'.2.1
      have hnext : (rollbackOp s).nextTxn = s.nextTxn + 1 := rfl
      have hcur : (rollbackOp s).currentTxn = s.nextTxn := rfl
      refine ⟨h'.1, by omega, ?_, ?_⟩
      · intro hnone
        exact absurd (hnone .rollback (List.mem_cons_self _ _)) (by simp [invalidating])
      · intro _
        by_cases hrem : ∀ o ∈ rest, invalidating o = false
        · have h3 := h'.2.2.1 hrem
          omega
        · push_neg at hrem
          rcases hrem with ⟨o, ho, hno⟩
          have hinv : invalidating o = true := by
            cases hv : invalidating o
            · exact absurd hv hno
            · rfl
          have h2 := h'.2.2.2 ⟨o, ho, hinv⟩
          omega

/-- Claim C5: a savepoint taken in a well-formed repository state is valid
after a sequence of repository operations iff the sequence contains no commit
and no rollback, and restoring an invalid savepoint returns `false` without
mutating the repository state. -/
theorem savepoint_valid_iff_no_commit_or_rollback
    (r : RepoState) (ops : List RepoOp) (sp : Savepoint) (hwf : RepoWF r) :
    (Savepoint.isValid (applyOps r ops) (savepointOp r) = true ↔
      ∀ op ∈ ops, invalidating op = false) ∧
    (Savepoint.isValid r sp = false → restoreOp r sp = (false, r)) := by
  constructor
  · have h' := applyOps_txn ops r hwf
    unfold Savepoint.isValid savepointOp
    simp only [beq_iff_eq]
    constructor
    · intro heq
      by_contra hrem
      push_neg at hrem
      rcases hrem with ⟨o, ho, hno⟩
      have hinv : invalidating o = true := by
        cases hv : invalidating o
        · exact absurd hv hno
        · rfl
      have h2 := h'.2.2.2 ⟨o, ho, hinv⟩
      have hwf2 : r.currentTxn < r.nextTxn := hwf
      omega
    · intro hnone
      exact (h'.2.2.1 hnone).symm
  · intro hinvalid
    unfold restoreOp
    rw [if_neg]
    simp [hinvalid]

/-- Witness for the C5 theorem: after a mutation and a commit, the savepoint
taken beforehand is invalid, and restoring a stale savepoint fails without
mutation. -/
theorem savepoint_valid_iff_no_commit_or_rollback_witness :
    Savepoint.isValid (applyOps repoExample opsExample) (savepointOp repoExample) = false ∧
    restoreOp repoExample spStale = (false, repoExample) := by
  have h := savepoint_valid_iff_no_commit_or_rollback repoExample opsExample spStale (by decide)
  refine ⟨?_, h.2 (by decide)⟩
  cases hb : Savepoint.isValid (applyOps repoExample opsExample) (savepointOp repoExample) with
  | false => rfl
  | true =>
    have hall := h.1.mp hb
    have hcommit := hall RepoOp.commit (by decide)
    simp [invalidating] at hcommit

end AcidStore
